import Mathlib

/-!
Verification of the peloton per-connection network engine
(`src/network/network_connection.cpp`) and the SQL string functions
(`src/function/string_functions.cpp`) against their natural-language
specification.  Bytes are modelled as `Nat` (values 0..255), buffers as
`List Nat` with explicit cursor indices, and socket interaction as an
explicit schedule of outcomes chosen by the environment.
-/

set_option linter.unusedVariables false
set_option linter.unusedTactic false

namespace Peloton

/-- C `tolower` in the C locale on a byte: 65..90 (A-Z) map down by 32,
everything else is unchanged. -/
def ctolower (c : Nat) : Nat := if 65 ≤ c ∧ c ≤ 90 then c + 32 else c

/-- C `toupper` in the C locale on a byte: 97..122 (a-z) map up by 32. -/
def ctoupper (c : Nat) : Nat := if 97 ≤ c ∧ c ≤ 122 then c - 32 else c

theorem ctolower_idem (c : Nat) : ctolower (ctolower c) = ctolower c := by
  unfold ctolower
  by_cases h : 65 ≤ c ∧ c ≤ 90
  · have h2 : ¬ (65 ≤ c + 32 ∧ c + 32 ≤ 90) := by omega
    simp only [if_pos h, if_neg h2]
  · simp only [if_neg h]

theorem ctolower_eq_92 (c : Nat) : ctolower c = 92 ↔ c = 92 := by
  unfold ctolower; split <;> omega

theorem ctolower_eq_37 (c : Nat) : ctolower c = 37 ↔ c = 37 := by
  unfold ctolower; split <;> omega

theorem ctolower_eq_95 (c : Nat) : ctolower c = 95 ↔ c = 95 := by
  unfold ctolower; split <;> omega

/-!
## StringFunctions::Like (`string_functions.cpp` lines 30-92)

The text `t` and pattern `p` are byte lists (the C function receives
pointer+length pairs and never looks past the given lengths).  Byte values:
`37 = '%'`, `92 = '\\'`, `95 = '_'`.

The C function is one `while` loop with an inner skip loop, a scan loop with
a recursive call, and an epilogue.  Each loop becomes one Lean function:
* `Like`       - the entry point (the `plen == 1 && *p == '%'` shortcut);
* `likeLoop`   - the outer `while (tlen > 0 && plen > 0)` loop;
* `likePercent`- the `'%'` branch: the inner `while` skipping `'%'`/`'_'`,
                 then the `firstpat` computation;
* `likeScan`   - the `while (tlen > 0)` scan that recursively calls `Like`;
* `likeEnd`    - the epilogue after the outer loop exits.
-/

/-- Epilogue over the remaining pattern once the text is exhausted:
`while (plen > 0 && *p == '%') NextByte(p); return plen <= 0`. -/
def likeEndP : List Nat → Bool
  | [] => true
  | pc :: p' => if pc = 37 then likeEndP p' else false

/-- Epilogue of `Like`: `if (tlen > 0) return false;` then `likeEndP`. -/
def likeEnd (t p : List Nat) : Bool :=
  match t with
  | _ :: _ => false
  | [] => likeEndP p

mutual

/-- `StringFunctions::Like`: the entry shortcut
`if (plen == 1 && *p == '%') return true;` followed by the main loop. -/
def Like (t p : List Nat) : Bool :=
  if p = [37] then true else likeLoop t p
termination_by 5 * (t.length + p.length) + 2
decreasing_by all_goals (try simp only [List.length_cons]); omega

/-- The outer `while (tlen > 0 && plen > 0)` loop of `Like`. -/
def likeLoop (t p : List Nat) : Bool :=
  match t, p with
  | c :: t', pc :: p' =>
    if pc = 92 then
      -- escape: consume the backslash, require one more pattern byte,
      -- compare it case-insensitively, then NextByte both.
      match p' with
      | [] => false
      | pc2 :: p'' =>
        if ctolower pc2 ≠ ctolower c then false
        else likeLoop t' p''
    else if pc = 37 then likePercent (c :: t') p'
    else if pc = 95 then likeLoop t' p'
    else if ctolower pc ≠ ctolower c then false
    else likeLoop t' p'
  | t, p => likeEnd t p
termination_by 5 * (t.length + p.length) + 1
decreasing_by all_goals (try simp only [List.length_cons]); omega

/-- The `'%'` branch: the inner loop consuming further `'%'` and `'_'`
bytes (each `'_'` also consumes one text byte), then the `firstpat`
computation handing over to the scan loop. -/
def likePercent (t p : List Nat) : Bool :=
  match p with
  | [] => true
  | pc :: p' =>
    if pc = 37 then likePercent t p'
    else if pc = 95 then
      match t with
      | [] => false
      | _ :: t' => likePercent t' p'
    else if pc = 92 then
      if p' = [] then false
      else likeScan t (pc :: p') (ctolower (p'.headD 0))
    else likeScan t (pc :: p') (ctolower pc)
termination_by 5 * (t.length + p.length) + 4
decreasing_by all_goals (try simp only [List.length_cons]); omega

/-- The scan loop: advance the text to each byte matching `firstpat` and
try the recursive `Like` there. -/
def likeScan (t p : List Nat) (fp : Nat) : Bool :=
  match t with
  | [] => false
  | c :: t' =>
    if ctolower c = fp then Like (c :: t') p || likeScan t' p fp
    else likeScan t' p fp
termination_by 5 * (t.length + p.length) + 3
decreasing_by all_goals (try simp only [List.length_cons]); omega

end

theorem likeEndP_lower (p : List Nat) : likeEndP (p.map ctolower) = likeEndP p := by
  induction p with
  | nil => rfl
  | cons pc p' ih =>
    simp only [List.map_cons, likeEndP]
    by_cases h : pc = 37
    · have h2 : ctolower pc = 37 := (ctolower_eq_37 pc).mpr h
      simp only [if_pos h, if_pos h2, ih]
    · have h2 : ¬ ctolower pc = 37 := fun hc => h ((ctolower_eq_37 pc).mp hc)
      simp only [if_neg h, if_neg h2]

theorem likeEnd_lower (t p : List Nat) :
    likeEnd (t.map ctolower) (p.map ctolower) = likeEnd t p := by
  cases t with
  | nil => simp only [List.map_nil, likeEnd, likeEndP_lower]
  | cons c t' => simp only [List.map_cons, likeEnd]

theorem map_ctolower_eq_pct (p : List Nat) : p.map ctolower = [37] ↔ p = [37] := by
  cases p with
  | nil => simp
  | cons pc p' =>
    cases p' with
    | nil => simp [ctolower_eq_37]
    | cons b l => simp

/-! Unfolding lemmas for the well-founded mutual definitions (their automatic
equation lemmas are split per leaf and carry the branch conditions as
hypotheses, which makes them unusable for rewriting). -/

theorem Like_unfold (t p : List Nat) :
    Like t p = if p = [37] then true else likeLoop t p := by
  rw [Like.eq_def]

theorem likeLoop_nil_left (p : List Nat) : likeLoop [] p = likeEnd [] p := by
  rw [likeLoop.eq_def]

theorem likeLoop_nil_right (c : Nat) (t' : List Nat) :
    likeLoop (c :: t') [] = likeEnd (c :: t') [] := by
  rw [likeLoop.eq_def]

theorem likeLoop_cons (c : Nat) (t' : List Nat) (pc : Nat) (p' : List Nat) :
    likeLoop (c :: t') (pc :: p') =
      if pc = 92 then
        match p' with
        | [] => false
        | pc2 :: p'' => if ctolower pc2 ≠ ctolower c then false else likeLoop t' p''
      else if pc = 37 then likePercent (c :: t') p'
      else if pc = 95 then likeLoop t' p'
      else if ctolower pc ≠ ctolower c then false
      else likeLoop t' p' := by
  rw [likeLoop.eq_def]

theorem likePercent_nil (t : List Nat) : likePercent t [] = true := by
  rw [likePercent.eq_def]

theorem likePercent_cons (t : List Nat) (pc : Nat) (p' : List Nat) :
    likePercent t (pc :: p') =
      if pc = 37 then likePercent t p'
      else if pc = 95 then
        match t with
        | [] => false
        | _ :: t' => likePercent t' p'
      else if pc = 92 then
        if p' = [] then false
        else likeScan t (pc :: p') (ctolower (p'.headD 0))
      else likeScan t (pc :: p') (ctolower pc) := by
  rw [likePercent.eq_def]

theorem likeScan_nil (p : List Nat) (fp : Nat) : likeScan [] p fp = false := by
  rw [likeScan.eq_def]

theorem likeScan_cons (c : Nat) (t' : List Nat) (p : List Nat) (fp : Nat) :
    likeScan (c :: t') p fp =
      if ctolower c = fp then Like (c :: t') p || likeScan t' p fp
      else likeScan t' p fp := by
  rw [likeScan.eq_def]

/-- The lowercase-invariance of `Like` and of each of its loops, proved by
joint strong induction on the total remaining length. -/
theorem like_lower_all : ∀ n t p, t.length + p.length ≤ n →
    (likeLoop (t.map ctolower) (p.map ctolower) = likeLoop t p) ∧
    (Like (t.map ctolower) (p.map ctolower) = Like t p) ∧
    (∀ fp, likeScan (t.map ctolower) (p.map ctolower) fp = likeScan t p fp) ∧
    (likePercent (t.map ctolower) (p.map ctolower) = likePercent t p) := by
  intro n
  induction n with
  | zero =>
    intro t p hlen
    have ht : t = [] := List.length_eq_zero.mp (by omega)
    have hp : p = [] := List.length_eq_zero.mp (by omega)
    subst ht; subst hp
    refine ⟨?_, ?_, fun fp => ?_, ?_⟩ <;>
      simp only [List.map_nil, Like_unfold, likeLoop_nil_left, likeScan_nil,
        likePercent_nil]
  | succ n ih =>
    intro t p hlen
    have hLoop : likeLoop (t.map ctolower) (p.map ctolower) = likeLoop t p := by
      cases t with
      | nil => simp only [List.map_nil, likeLoop_nil_left, likeEnd, likeEndP_lower]
      | cons c t' =>
        cases p with
        | nil => simp only [List.map_nil, List.map_cons, likeLoop_nil_right, likeEnd]
        | cons pc p' =>
          simp only [List.length_cons] at hlen
          simp only [List.map_cons, likeLoop_cons]
          by_cases h92 : pc = 92
          · have h92l : ctolower pc = 92 := (ctolower_eq_92 pc).mpr h92
            rw [if_pos h92, if_pos h92l]
            cases p' with
            | nil => simp only [List.map_nil]
            | cons pc2 p'' =>
              simp only [List.map_cons]
              by_cases hc : ctolower pc2 = ctolower c
              · have hcl : ctolower (ctolower pc2) = ctolower (ctolower c) := by
                  rw [ctolower_idem, ctolower_idem, hc]
                simp only [ne_eq, hc, hcl, not_true_eq_false, ite_false]
                simp only [List.length_cons] at hlen
                exact (ih t' p'' (by omega)).1
              · have hcl : ¬ ctolower (ctolower pc2) = ctolower (ctolower c) := by
                  rw [ctolower_idem, ctolower_idem]; exact hc
                simp only [ne_eq, hc, hcl, not_false_eq_true, ite_true]
          · have h92l : ¬ ctolower pc = 92 := fun hc => h92 ((ctolower_eq_92 pc).mp hc)
            rw [if_neg h92, if_neg h92l]
            by_cases h37 : pc = 37
            · have h37l : ctolower pc = 37 := (ctolower_eq_37 pc).mpr h37
              rw [if_pos h37, if_pos h37l, ← List.map_cons]
              exact (ih (c :: t') p' (by simp only [List.length_cons]; omega)).2.2.2
            · have h37l : ¬ ctolower pc = 37 := fun hc => h37 ((ctolower_eq_37 pc).mp hc)
              rw [if_neg h37, if_neg h37l]
              by_cases h95 : pc = 95
              · have h95l : ctolower pc = 95 := (ctolower_eq_95 pc).mpr h95
                rw [if_pos h95, if_pos h95l]
                exact (ih t' p' (by omega)).1
              · have h95l : ¬ ctolower pc = 95 := fun hc => h95 ((ctolower_eq_95 pc).mp hc)
                rw [if_neg h95, if_neg h95l]
                by_cases hc : ctolower pc = ctolower c
                · have hcl : ctolower (ctolower pc) = ctolower (ctolower c) := by
                    rw [ctolower_idem, ctolower_idem, hc]
                  simp only [ne_eq, hc, hcl, not_true_eq_false, ite_false]
                  exact (ih t' p' (by omega)).1
                · have hcl : ¬ ctolower (ctolower pc) = ctolower (ctolower c) := by
                    rw [ctolower_idem, ctolower_idem]; exact hc
                  simp only [ne_eq, hc, hcl, not_false_eq_true, ite_true]
    have hLike : Like (t.map ctolower) (p.map ctolower) = Like t p := by
      rw [Like_unfold, Like_unfold]
      by_cases h : p = [37]
      · have hl : p.map ctolower = [37] := (map_ctolower_eq_pct p).mpr h
        rw [if_pos h, if_pos hl]
      · have hl : ¬ p.map ctolower = [37] := fun hc => h ((map_ctolower_eq_pct p).mp hc)
        rw [if_neg h, if_neg hl]
        exact hLoop
    have hScan : ∀ fp, likeScan (t.map ctolower) (p.map ctolower) fp = likeScan t p fp := by
      intro fp
      cases t with
      | nil => simp only [List.map_nil, likeScan_nil]
      | cons c t' =>
        simp only [List.length_cons] at hlen
        simp only [List.map_cons, likeScan_cons, ctolower_idem]
        by_cases hcf : ctolower c = fp
        · rw [if_pos hcf, if_pos hcf, ← List.map_cons, hLike,
            (ih t' p (by omega)).2.2.1 fp]
        · rw [if_neg hcf, if_neg hcf]
          exact (ih t' p (by omega)).2.2.1 fp
    have hPercent : likePercent (t.map ctolower) (p.map ctolower) = likePercent t p := by
      cases p with
      | nil => simp only [List.map_nil, likePercent_nil]
      | cons pc p' =>
        simp only [List.length_cons] at hlen
        simp only [List.map_cons, likePercent_cons]
        by_cases h37 : pc = 37
        · have h37l : ctolower pc = 37 := (ctolower_eq_37 pc).mpr h37
          rw [if_pos h37, if_pos h37l]
          exact (ih t p' (by omega)).2.2.2
        · have h37l : ¬ ctolower pc = 37 := fun hc => h37 ((ctolower_eq_37 pc).mp hc)
          rw [if_neg h37, if_neg h37l]
          by_cases h95 : pc = 95
          · have h95l : ctolower pc = 95 := (ctolower_eq_95 pc).mpr h95
            rw [if_pos h95, if_pos h95l]
            cases t with
            | nil => simp only [List.map_nil]
            | cons c t' =>
              simp only [List.map_cons, List.length_cons] at hlen ⊢
              exact (ih t' p' (by omega)).2.2.2
          · have h95l : ¬ ctolower pc = 95 := fun hc => h95 ((ctolower_eq_95 pc).mp hc)
            rw [if_neg h95, if_neg h95l]
            by_cases h92 : pc = 92
            · have h92l : ctolower pc = 92 := (ctolower_eq_92 pc).mpr h92
              rw [if_pos h92, if_pos h92l]
              by_cases hnil : p' = []
              · have hnl : p'.map ctolower = [] := by simp [hnil]
                rw [if_pos hnil, if_pos hnl]
              · have hnl : ¬ p'.map ctolower = [] := by simp [hnil]
                rw [if_neg hnil, if_neg hnl]
                have hhead : (p'.map ctolower).headD 0 = ctolower (p'.headD 0) := by
                  cases p' with
                  | nil => exact absurd rfl hnil
                  | cons a l => simp only [List.map_cons, List.headD_cons]
                rw [hhead, ctolower_idem, ← List.map_cons]
                exact hScan (ctolower (p'.headD 0))
            · have h92l : ¬ ctolower pc = 92 := fun hc => h92 ((ctolower_eq_92 pc).mp hc)
              rw [if_neg h92, if_neg h92l, ctolower_idem, ← List.map_cons]
              exact hScan (ctolower pc)
    exact ⟨hLoop, hLike, hScan, hPercent⟩

/-- C9: `StringFunctions::Like` compares text and pattern case-insensitively:
for every text `t` and pattern `p` (as byte lists of their given lengths),
`Like t p` equals `Like` applied to the byte-wise lowercased `t` and `p`;
every character comparison in literal, `'_'` and `'%'` matching goes through
`tolower` on both sides. -/
theorem Like_case_insensitive (t p : List Nat) :
    Like t p = Like (t.map ctolower) (p.map ctolower) :=
  ((like_lower_all (t.length + p.length) t p le_rfl).2.1).symm

/-!
## SQL-facing string wrappers (`string_functions.cpp` lines 224-317)
-/

/-- A `type::Value` as far as the `_Upper`/`_Lower`/`_Concat` wrappers
inspect it: NULL, or a VARCHAR holding its bytes (`GetLength` bytes, the
terminating NUL included, as the C wrappers pass them around). -/
inductive Value
  | null
  | varchar (s : List Nat)
deriving DecidableEq, Repr

/-- `type::Value::IsNull` as the wrappers consult it. -/
def Value.isNull : Value → Bool
  | .null => true
  | .varchar _ => false

/-- `GetAs<const char*>` plus `GetLength`: the byte contents of a value
(only read on the non-NULL paths). -/
def Value.bytes : Value → List Nat
  | .null => []
  | .varchar s => s

/-- `StringFunctions::Upper` (lines 224-236): `toupper` each of the
`length` bytes into a fresh string. -/
def Upper (s : List Nat) : List Nat := s.map ctoupper

/-- `StringFunctions::Lower` (lines 251-263): `tolower` each byte. -/
def Lower (s : List Nat) : List Nat := s.map ctolower

/-- `StringFunctions::Concat` (lines 278-301) for exactly two strings, as
`_Concat` invokes it: the second string is copied over the terminating NUL
of the first (`new_str + concat_lengths[0] - 1`), so the result is `s1`
without its last byte followed by `s2`. -/
def Concat2 (s1 s2 : List Nat) : List Nat := s1.dropLast ++ s2

/-- `StringFunctions::_Upper` (lines 238-249): `PL_ASSERT(args.size() == 1)`;
NULL argument yields the NULL value of type VARCHAR, otherwise `Upper` of
the argument's bytes.  (The empty-vector arm is outside the assertion's
domain and never exercised by the theorems.) -/
def SqlUpper (args : List Value) : Value :=
  match args.head? with
  | none => Value.null
  | some v => if v.isNull then Value.null else Value.varchar (Upper v.bytes)

/-- `StringFunctions::_Lower` (lines 265-276). -/
def SqlLower (args : List Value) : Value :=
  match args.head? with
  | none => Value.null
  | some v => if v.isNull then Value.null else Value.varchar (Lower v.bytes)

/-- `StringFunctions::_Concat` (lines 303-317): `PL_ASSERT(args.size() == 2)`;
NULL if either argument is NULL, else `Concat` of the two byte strings. -/
def SqlConcat (args : List Value) : Value :=
  match args with
  | v0 :: v1 :: _ =>
    if v0.isNull || v1.isNull then Value.null
    else Value.varchar (Concat2 v0.bytes v1.bytes)
  | _ => Value.null

/-- C10: `_Upper`, `_Lower` and `_Concat` propagate NULL: any NULL argument
makes them return the NULL value of type VARCHAR (modelled `Value.null`)
without applying the string operation, and non-NULL arguments return the
result of `Upper`, `Lower` or `Concat` respectively. -/
theorem sql_wrappers_null_propagation :
    (∀ args : List Value, args.length = 1 →
      ((∃ v, v ∈ args ∧ v.isNull = true) → SqlUpper args = Value.null) ∧
      (∀ s, args = [Value.varchar s] → SqlUpper args = Value.varchar (Upper s))) ∧
    (∀ args : List Value, args.length = 1 →
      ((∃ v, v ∈ args ∧ v.isNull = true) → SqlLower args = Value.null) ∧
      (∀ s, args = [Value.varchar s] → SqlLower args = Value.varchar (Lower s))) ∧
    (∀ args : List Value, args.length = 2 →
      ((∃ v, v ∈ args ∧ v.isNull = true) → SqlConcat args = Value.null) ∧
      (∀ s1 s2, args = [Value.varchar s1, Value.varchar s2] →
        SqlConcat args = Value.varchar (Concat2 s1 s2))) := by
  refine ⟨?_, ?_, ?_⟩
  · intro args h1
    match args, h1 with
    | [v], _ =>
      refine ⟨?_, ?_⟩
      · rintro ⟨w, hw, hnull⟩
        simp only [List.mem_singleton] at hw
        subst hw
        cases w with
        | null => rfl
        | varchar s => simp [Value.isNull] at hnull
      · intro s heq
        cases heq
        rfl
  · intro args h1
    match args, h1 with
    | [v], _ =>
      refine ⟨?_, ?_⟩
      · rintro ⟨w, hw, hnull⟩
        simp only [List.mem_singleton] at hw
        subst hw
        cases w with
        | null => rfl
        | varchar s => simp [Value.isNull] at hnull
      · intro s heq
        cases heq
        rfl
  · intro args h2
    match args, h2 with
    | [v0, v1], _ =>
      refine ⟨?_, ?_⟩
      · rintro ⟨w, hw, hnull⟩
        simp only [List.mem_cons, List.mem_singleton, List.not_mem_nil, or_false] at hw
        rcases hw with rfl | rfl
        · simp [SqlConcat, hnull]
        · simp [SqlConcat, hnull]
      · rintro s1 s2 heq
        cases heq
        rfl

/-!
## The network write path (`network_connection.cpp`)

`Buffer` models the `Buffer` class both `rbuf_` and `wbuf_` instantiate.
Socket writes are driven by a `sched`ule of `WriteOutcome`s - one entry per
`write(2)` call, chosen by the kernel/peer - and the bytes the socket
accepted accumulate in `peer`.
-/

/-- Overwrite the bytes of `l` at positions `pos, pos+1, ...` with `b`
(`std::copy` into the fixed-size buffer; callers stay within the capacity). -/
def listOverwrite (l : List Nat) (pos : Nat) (b : List Nat) : List Nat :=
  l.take pos ++ b ++ l.drop (pos + b.length)

/-- Read `n` bytes of `l` starting at `pos`.  Reads past the end yield 0:
the C code would read adjacent memory there, and the counterexamples only
rely on the in-range part. -/
def sliceD (l : List Nat) (pos n : Nat) : List Nat :=
  (List.range n).map fun i => l.getD (pos + i) 0

/-- `htonl` of a value already reduced mod `2^32`: its four bytes in
big-endian (network) order. -/
def be32 (n : Nat) : List Nat :=
  [n / 2 ^ 24 % 256, n / 2 ^ 16 % 256, n / 2 ^ 8 % 256, n % 256]

/-- Modelled from the spec: the network `Buffer` class (declared in a header
that is not among the staged sources).  Spec section 3: a fixed capacity
`CAP` with bytes `data`, a cursor `buf_ptr`, a committed watermark
`buf_size`, and (used by the write buffer) a flush cursor `buf_flush_ptr`;
`Reset` sets all indices to zero; `GetMaxSize` returns `CAP`. -/
structure Buffer where
  cap : Nat
  data : List Nat
  buf_ptr : Nat
  buf_size : Nat
  buf_flush_ptr : Nat
deriving DecidableEq, Repr

/-- Modelled from the spec: `Reset` sets all indices to zero. -/
def Buffer.Reset (b : Buffer) : Buffer :=
  { b with buf_ptr := 0, buf_size := 0, buf_flush_ptr := 0 }

/-- Modelled from the spec: the fixed capacity. -/
def Buffer.GetMaxSize (b : Buffer) : Nat := b.cap

/-- Modelled from the spec: at least `n` unread bytes between the cursor and
the watermark (`available_read() >= n`). -/
def Buffer.IsReadDataAvailable (b : Buffer) (n : Nat) : Bool :=
  decide (b.buf_ptr + n ≤ b.buf_size)

/-- Modelled from the spec: the 4-byte big-endian value at the cursor.  The
call site in `ReadStartupPacketHeader` advances `buf_ptr` by 4 itself, so
this only reads. -/
def Buffer.GetUInt32BigEndian (b : Buffer) : Nat :=
  b.data.getD b.buf_ptr 0 * 2 ^ 24 + b.data.getD (b.buf_ptr + 1) 0 * 2 ^ 16 +
    b.data.getD (b.buf_ptr + 2) 0 * 2 ^ 8 + b.data.getD (b.buf_ptr + 3) 0

/-- Outcome of one `write(2)` call on the non-blocking socket, chosen by the
environment (the adversary of the partial-flush claims). -/
inductive WriteOutcome
  | wrote (n : Nat)    -- write returned n >= 0 (0 hits the "weird edge case" retry)
  | wouldBlock         -- EAGAIN / EWOULDBLOCK
  | interrupted        -- EINTR
  | fatal              -- any other errno
deriving DecidableEq, Repr

/-- The `WriteState` results of the buffering functions. -/
inductive WriteState
  | WRITE_COMPLETE
  | WRITE_NOT_READY
  | WRITE_ERROR
deriving DecidableEq, Repr, Fintype

/-- `NetworkConnection::FlushWriteBuffer` (lines 248-369), plain-socket path:
while `buf_size > 0`, call `write(fd, &wbuf_.buf[buf_flush_ptr], buf_size)`;
on a positive return advance `buf_flush_ptr` and decrement `buf_size`
(`buf_size` counts the bytes still to flush); on EAGAIN/EWOULDBLOCK re-arm
the event for write and return `WRITE_NOT_READY`; on EINTR, or on a zero
return with bytes outstanding, retry; on any other errno return
`WRITE_ERROR`.  Once everything is flushed, `Reset` the buffer and return
`WRITE_COMPLETE`.  An exhausted schedule acts like EAGAIN (the environment
stops accepting bytes). -/
def FlushWriteBuffer (w : Buffer) (sched : List WriteOutcome) (peer : List Nat) :
    WriteState × Buffer × List WriteOutcome × List Nat :=
  if w.buf_size = 0 then (.WRITE_COMPLETE, w.Reset, sched, peer)
  else
    match sched with
    | [] => (.WRITE_NOT_READY, w, [], peer)
    | o :: rest =>
      match o with
      | .wrote n =>
        if n = 0 then FlushWriteBuffer w rest peer
        else
          let m := min n w.buf_size
          FlushWriteBuffer
            { w with buf_flush_ptr := w.buf_flush_ptr + m, buf_size := w.buf_size - m }
            rest (peer ++ sliceD w.data w.buf_flush_ptr m)
      | .wouldBlock => (.WRITE_NOT_READY, w, rest, peer)
      | .interrupted => FlushWriteBuffer w rest peer
      | .fatal => (.WRITE_ERROR, w, rest, peer)

/-- An `OutputPacket`: message type byte (`0` means "no type prefix"),
payload length `len`, payload bytes `buf`, and the partial-write progress
fields `write_ptr` and `skip_header_write`. -/
structure OutputPacket where
  msg_type : Nat
  len : Nat
  buf : List Nat
  write_ptr : Nat
  skip_header_write : Bool
deriving DecidableEq, Repr

/-- `NetworkConnection::BufferWriteBytesHeader` (lines 452-495): nothing to
do when `skip_header_write` is already set; flush first when fewer than
`1 + sizeof(int32_t)` bytes of the buffer remain; then append the type byte
(only when `msg_type != 0`) and - only when `finish_startup_packet_` is set -
the 4-byte big-endian `htonl(len + sizeof(int32_t))`; finally set
`buf_size = buf_ptr` and mark the header written. -/
def BufferWriteBytesHeader (pkt : OutputPacket) (w : Buffer) (finish_startup : Bool)
    (sched : List WriteOutcome) (peer : List Nat) :
    WriteState × OutputPacket × Buffer × List WriteOutcome × List Nat :=
  if pkt.skip_header_write then (.WRITE_COMPLETE, pkt, w, sched, peer)
  else
    let emit : Buffer → List WriteOutcome → List Nat →
        WriteState × OutputPacket × Buffer × List WriteOutcome × List Nat :=
      fun w sched peer =>
        let w1 := if pkt.msg_type ≠ 0 then
            { w with data := listOverwrite w.data w.buf_ptr [pkt.msg_type % 256],
                     buf_ptr := w.buf_ptr + 1 }
          else w
        let w2 := if finish_startup then
            { w1 with data := listOverwrite w1.data w1.buf_ptr (be32 ((pkt.len + 4) % 2 ^ 32)),
                      buf_ptr := w1.buf_ptr + 4 }
          else w1
        (.WRITE_COMPLETE, { pkt with skip_header_write := true },
          { w2 with buf_size := w2.buf_ptr }, sched, peer)
    if w.GetMaxSize - w.buf_ptr < 5 then
      match FlushWriteBuffer w sched peer with
      | (.WRITE_COMPLETE, w1, sched1, peer1) => emit w1 sched1 peer1
      | (r, w1, sched1, peer1) => (r, pkt, w1, sched1, peer1)
    else emit w sched peer

/-- The `while (len)` loop of `BufferWriteBytesContent` (lines 499-546).
`len` is the loop-local remaining count, initialised to `pkt->len` on every
call (it is NOT reduced by `write_ptr` - the source of claim C1's bug).
When the remainder fits in the window, copy it and set
`buf_size = buf_ptr + len` (the fitting branch does not advance
`write_ptr`); otherwise copy a window's worth from `write_ptr`, advance
`write_ptr`, mark the buffer full and flush, continuing only on
`WRITE_COMPLETE`.  `fuel` merely totalises the Lean recursion: an iteration
that does not return either ends the loop or had its flush consume at least
one schedule entry, so `sched.length + 1` is always enough when the
capacity is positive. -/
def bufferWriteBytesContentLoop :
    Nat → Nat → OutputPacket → Buffer → List WriteOutcome → List Nat →
    WriteState × OutputPacket × Buffer × List WriteOutcome × List Nat
  | 0, _, pkt, w, sched, peer => (.WRITE_ERROR, pkt, w, sched, peer)
  | fuel + 1, len, pkt, w, sched, peer =>
    if len = 0 then (.WRITE_COMPLETE, pkt, w, sched, peer)
    else
      let window := w.GetMaxSize - w.buf_ptr
      if len ≤ window then
        (.WRITE_COMPLETE, pkt,
          { w with data := listOverwrite w.data w.buf_ptr (sliceD pkt.buf pkt.write_ptr len),
                   buf_ptr := w.buf_ptr + len, buf_size := w.buf_ptr + len },
          sched, peer)
      else
        let w1 := { w with
          data := listOverwrite w.data w.buf_ptr (sliceD pkt.buf pkt.write_ptr window),
          buf_size := w.GetMaxSize }
        let pkt1 := { pkt with write_ptr := pkt.write_ptr + window }
        match FlushWriteBuffer w1 sched peer with
        | (.WRITE_COMPLETE, w2, sched2, peer2) =>
          bufferWriteBytesContentLoop fuel (len - window) pkt1 w2 sched2 peer2
        | (r, w2, sched2, peer2) => (r, pkt1, w2, sched2, peer2)

/-- `NetworkConnection::BufferWriteBytesContent` (lines 499-546): run the
loop with `len` initialised to `pkt->len`. -/
def BufferWriteBytesContent (pkt : OutputPacket) (w : Buffer)
    (sched : List WriteOutcome) (peer : List Nat) :
    WriteState × OutputPacket × Buffer × List WriteOutcome × List Nat :=
  bufferWriteBytesContentLoop (sched.length + 1) pkt.len pkt w sched peer

/-- The `for (; next_response_ < responses.size(); next_response_++)` loop of
`WritePackets` (lines 68-76): for each remaining packet write the header,
then the content; stop on `WRITE_NOT_READY`/`WRITE_ERROR`, keeping each
packet's progress fields in the queue.  The `Nat` component counts the
packets fully written (the `next_response_++` increments), so a blocked
re-entry resumes at the packet that failed. -/
def WritePacketsLoop (todo : List OutputPacket) (w : Buffer) (finish_startup : Bool)
    (sched : List WriteOutcome) (peer : List Nat) :
    WriteState × List OutputPacket × Nat × Buffer × List WriteOutcome × List Nat :=
  match todo with
  | [] => (.WRITE_COMPLETE, [], 0, w, sched, peer)
  | pkt :: rest =>
    match BufferWriteBytesHeader pkt w finish_startup sched peer with
    | (.WRITE_COMPLETE, pkt1, w1, s1, p1) =>
      match BufferWriteBytesContent pkt1 w1 s1 p1 with
      | (.WRITE_COMPLETE, pkt2, w2, s2, p2) =>
        match WritePacketsLoop rest w2 finish_startup s2 p2 with
        | (r, rest2, k, w3, s3, p3) => (r, pkt2 :: rest2, k + 1, w3, s3, p3)
      | (r, pkt2, w2, s2, p2) => (r, pkt2 :: rest, 0, w2, s2, p2)
    | (r, pkt1, w1, s1, p1) => (r, pkt1 :: rest, 0, w1, s1, p1)

/-- The connection fields `WritePackets` touches. -/
structure WriteConn where
  wbuf : Buffer
  responses : List OutputPacket   -- protocol_handler_->responses
  next_response : Nat             -- next_response_
  flushFlag : Bool                -- protocol_handler_->GetFlushFlag()
  finish_startup : Bool           -- finish_startup_packet_
  writeBlocked : Bool             -- GetWriteBlocked() (set only by the TLS flush path)
deriving DecidableEq, Repr

/-- `NetworkConnection::WritePackets` (lines 61-90): when `GetWriteBlocked()`
flush first (discarding the result, as the code does); iterate over the
responses from `next_response_`; when all packets were written clear the
queue, reset `next_response_`, and either flush once more (when the
handler's flush flag is set - the flag itself is left set in that branch)
or clear the flush flag and report `WRITE_COMPLETE`. -/
def WritePackets (st : WriteConn) (sched : List WriteOutcome) (peer : List Nat) :
    WriteState × WriteConn × List WriteOutcome × List Nat :=
  let pre :=
    if st.writeBlocked then
      let r := FlushWriteBuffer st.wbuf sched peer
      (r.2.1, r.2.2.1, r.2.2.2)
    else (st.wbuf, sched, peer)
  match pre with
  | (w0, sched0, peer0) =>
    match WritePacketsLoop (st.responses.drop st.next_response) w0 st.finish_startup
        sched0 peer0 with
    | (.WRITE_COMPLETE, _, _, w1, s1, p1) =>
      let st1 := { st with wbuf := w1, responses := [], next_response := 0 }
      if st.flushFlag then
        match FlushWriteBuffer w1 s1 p1 with
        | (r, w2, s2, p2) => (r, { st1 with wbuf := w2 }, s2, p2)
      else
        (.WRITE_COMPLETE, { st1 with flushFlag := false }, s1, p1)
    | (r, todo1, k, w1, s1, p1) =>
      (r, { st with wbuf := w1,
                    responses := st.responses.take st.next_response ++ todo1,
                    next_response := st.next_response + k }, s1, p1)

/-- A buffer as `Init` leaves it: capacity `cap`, zeroed bytes, all indices 0. -/
def freshBuffer (cap : Nat) : Buffer :=
  { cap := cap, data := List.replicate cap 0, buf_ptr := 0, buf_size := 0, buf_flush_ptr := 0 }

/-- The pre-read section of `NetworkConnection::FillReadBuffer`
(lines 92-119): skipped when `GetReadBlocked()` (a partial TLS record is
pending inside the session); otherwise `Reset` when everything was consumed
(`buf_ptr == buf_size`), then move the unread tail `[buf_ptr..buf_size)` to
offset 0 when there is leftover data and the buffer is full
(`buf_ptr < buf_size && buf_size == GetMaxSize()`). -/
def FillReadBufferPre (readBlocked : Bool) (r : Buffer) : Buffer :=
  if readBlocked then r
  else
    let r1 := if r.buf_ptr = r.buf_size then r.Reset else r
    if r1.buf_ptr < r1.buf_size ∧ r1.buf_size = r1.GetMaxSize then
      { r1 with
        data := listOverwrite r1.data 0 (sliceD r1.data r1.buf_ptr (r1.buf_size - r1.buf_ptr)),
        buf_ptr := 0, buf_size := r1.buf_size - r1.buf_ptr }
    else r1

/-! ### List helper lemmas -/

theorem sliceD_length (l : List Nat) (pos n : Nat) : (sliceD l pos n).length = n := by
  simp [sliceD]

theorem listOverwrite_length (l b : List Nat) (p : Nat) (h : p + b.length ≤ l.length) :
    (listOverwrite l p b).length = l.length := by
  simp only [listOverwrite, List.length_append, List.length_take, List.length_drop]
  omega

theorem listOverwrite_take (l b : List Nat) (p : Nat) (h : p + b.length ≤ l.length) :
    (listOverwrite l p b).take (p + b.length) = l.take p ++ b := by
  have hp : (l.take p).length = p := by simp; omega
  simp only [listOverwrite, List.append_assoc]
  rw [List.take_append_eq_append_take, hp, List.take_append_eq_append_take]
  have h1 : p + b.length - p = b.length := by omega
  rw [h1, Nat.sub_self, List.take_zero, List.append_nil, List.take_length, List.take_take,
    Nat.min_eq_right (by omega)]

theorem sliceD_eq_drop_take (l : List Nat) (pos n : Nat) (h : pos + n ≤ l.length) :
    sliceD l pos n = (l.drop pos).take n := by
  apply List.ext_getElem
  · simp [sliceD]; omega
  · intro i h1 h2
    simp only [sliceD, List.getElem_map, List.getElem_range, List.getElem_take,
      List.getElem_drop]
    have h3 : i < n := by simpa [sliceD] using h1
    have h4 : pos + i < l.length := by omega
    exact List.getD_eq_getElem l 0 h4

theorem sliceD_self (l : List Nat) : sliceD l 0 l.length = l := by
  rw [sliceD_eq_drop_take l 0 l.length (by omega), List.drop_zero, List.take_length]

/-!
## C2: the buffer index invariant

The write buffer violates `flush_cursor <= committed` as soon as a write is
partial: `FlushWriteBuffer` treats `buf_size` as "bytes remaining", so
after `write` accepts 6 of 8 bytes, `buf_flush_ptr = 6 > buf_size = 2`.
The conserved quantity is `buf_flush_ptr + buf_size <= cap`.
-/

def c2Wbuf : Buffer :=
  { cap := 8, data := [10, 20, 30, 40, 50, 60, 70, 80], buf_ptr := 8, buf_size := 8,
    buf_flush_ptr := 0 }

def c2Flush := FlushWriteBuffer c2Wbuf [WriteOutcome.wrote 6, WriteOutcome.wouldBlock] []

/-- C2 counterexample: a partial flush (6 of 8 bytes accepted, then EAGAIN)
returns `WRITE_NOT_READY` with `buf_flush_ptr = 6` exceeding `buf_size = 2`,
refuting `flush_cursor <= committed` during `FlushWriteBuffer`. -/
theorem flush_cursor_exceeds_committed :
    c2Flush.1 = WriteState.WRITE_NOT_READY ∧
    c2Flush.2.1.buf_flush_ptr = 6 ∧ c2Flush.2.1.buf_size = 2 ∧
    ¬ c2Flush.2.1.buf_flush_ptr ≤ c2Flush.2.1.buf_size := by decide

/-- `FlushWriteBuffer` preserves `buf_flush_ptr + buf_size ≤ cap` under any
schedule of write outcomes (its steps conserve the sum until the final
`Reset` zeroes both). -/
theorem flush_preserves_span :
    ∀ (sched : List WriteOutcome) (w : Buffer) (peer : List Nat),
      w.buf_flush_ptr + w.buf_size ≤ w.cap →
      (FlushWriteBuffer w sched peer).2.1.buf_flush_ptr +
          (FlushWriteBuffer w sched peer).2.1.buf_size ≤
        (FlushWriteBuffer w sched peer).2.1.cap := by
  intro sched
  induction sched with
  | nil =>
    intro w peer h
    rw [FlushWriteBuffer.eq_def]
    by_cases h0 : w.buf_size = 0
    · simp only [if_pos h0, Buffer.Reset]
      simp
    · simp only [if_neg h0]
      exact h
  | cons o rest ih =>
    intro w peer h
    rw [FlushWriteBuffer.eq_def]
    by_cases h0 : w.buf_size = 0
    · simp only [if_pos h0, Buffer.Reset]
      simp
    · simp only [if_neg h0]
      cases o with
      | wrote n =>
        by_cases hn : n = 0
        · simp only [if_pos hn]
          exact ih w peer h
        · simp only [if_neg hn]
          exact ih _ _ (by simp only []; omega)
      | wouldBlock => exact h
      | interrupted => exact ih w peer h
      | fatal => exact h

/-- C2 (amended): the read-buffer pre-read step preserves
`0 ≤ buf_ptr ≤ buf_size ≤ CAP`; on the write buffer, `buf_size` during
`FlushWriteBuffer` counts the bytes still to flush, and the invariant that
holds at every point is `buf_flush_ptr + buf_size ≤ CAP` (so after a
partial write `buf_flush_ptr` may exceed `buf_size`). -/
theorem buffer_index_invariants :
    (∀ (rb : Bool) (r : Buffer), r.buf_ptr ≤ r.buf_size → r.buf_size ≤ r.cap →
      (FillReadBufferPre rb r).buf_ptr ≤ (FillReadBufferPre rb r).buf_size ∧
      (FillReadBufferPre rb r).buf_size ≤ (FillReadBufferPre rb r).cap) ∧
    (∀ (w : Buffer) (sched : List WriteOutcome) (peer : List Nat),
      w.buf_flush_ptr + w.buf_size ≤ w.cap →
      (FlushWriteBuffer w sched peer).2.1.buf_flush_ptr +
          (FlushWriteBuffer w sched peer).2.1.buf_size ≤
        (FlushWriteBuffer w sched peer).2.1.cap) := by
  constructor
  · intro rb r h1 h2
    unfold FillReadBufferPre
    dsimp only
    split_ifs <;> simp_all [Buffer.Reset, Buffer.GetMaxSize]
  · intro w sched peer h
    exact flush_preserves_span sched w peer h

/-!
## C1: WRITE-state re-entry after a partial flush

A single response packet (type 88, payload `[1..10]`) against an 8-byte
write buffer, startup finished, flush flag set.  The first `WritePackets`
call buffers the 5-byte header plus payload bytes 1,2,3 and then the socket
refuses the flush (EAGAIN): the engine yields `WRITE_NOT_READY`, the packet
recording `write_ptr = 3`, `skip_header_write = true`.  The second call
re-enters with a willing socket.  `BufferWriteBytesContent` re-initialises
its loop counter to the full `pkt->len` instead of `pkt->len - write_ptr`,
and the pending unflushed bytes are overwritten before being flushed, so
the peer receives `[88,0,0,0,14, 4..10, 0,0,0]`: payload bytes 1,2,3 are
lost and three bytes past the payload's end are emitted. -/

def c1Pkt : OutputPacket :=
  { msg_type := 88, len := 10, buf := [1, 2, 3, 4, 5, 6, 7, 8, 9, 10], write_ptr := 0,
    skip_header_write := false }

def c1Conn : WriteConn :=
  { wbuf := freshBuffer 8, responses := [c1Pkt], next_response := 0,
    flushFlag := true, finish_startup := true, writeBlocked := false }

def c1First := WritePackets c1Conn [WriteOutcome.wouldBlock] []

def c1Second :=
  WritePackets c1First.2.1 [WriteOutcome.wrote 8, WriteOutcome.wrote 7] c1First.2.2.2

/-- The byte stream C1 asserts the peer must see: the serialised packet,
header then payload. -/
def c1Serialised : List Nat :=
  [88] ++ be32 ((10 + 4) % 2 ^ 32) ++ [1, 2, 3, 4, 5, 6, 7, 8, 9, 10]

/-- C1 (code bug): re-entering the WRITE state after a would-block flush
does not produce the concatenation of the serialised packets: on this
queue/schedule the peer stream loses payload bytes 1,2,3 and includes three
bytes read past the payload's end, because `BufferWriteBytesContent` resets
its remaining-length counter to the full `pkt->len` on re-entry. -/
theorem writePackets_reentry_corrupts_stream :
    c1First.1 = WriteState.WRITE_NOT_READY ∧
    c1Second.1 = WriteState.WRITE_COMPLETE ∧
    c1Second.2.2.2 = [88, 0, 0, 0, 14, 4, 5, 6, 7, 8, 9, 10, 0, 0, 0] ∧
    c1Second.2.2.2 ≠ c1Serialised := by decide

/-!
## C3: the packet header layout
-/

/-- The wire header the WRITE state emits for a packet once startup is
finished: the type byte (omitted exactly when `msg_type = 0`) followed by
the 4-byte big-endian length including its own field. -/
def headerBytes (pkt : OutputPacket) : List Nat :=
  (if pkt.msg_type ≠ 0 then [pkt.msg_type % 256] else []) ++ be32 ((pkt.len + 4) % 2 ^ 32)

theorem be32_length (n : Nat) : (be32 n).length = 4 := rfl

theorem headerBytes_length_le (pkt : OutputPacket) : (headerBytes pkt).length ≤ 5 := by
  unfold headerBytes be32
  split_ifs <;> simp

theorem listOverwrite_drop_ge (l b : List Nat) (p m : Nat)
    (hrange : p + b.length ≤ l.length) (hm : p + b.length ≤ m) :
    (listOverwrite l p b).drop m = l.drop m := by
  have hp : (l.take p).length = p := by simp; omega
  simp only [listOverwrite, List.append_assoc]
  rw [List.drop_append_eq_append_drop, List.drop_append_eq_append_drop, hp]
  rw [List.drop_eq_nil_of_le (by simp; omega), List.drop_eq_nil_of_le (by omega),
    List.drop_drop]
  simp only [List.nil_append]
  congr 1
  omega

theorem listOverwrite_append (l a b : List Nat) (p : Nat)
    (h : p + a.length + b.length ≤ l.length) :
    listOverwrite (listOverwrite l p a) (p + a.length) b = listOverwrite l p (a ++ b) := by
  conv_lhs => rw [listOverwrite]
  rw [listOverwrite_take l a p (by omega),
    listOverwrite_drop_ge l a p (p + a.length + b.length) (by omega) (by omega)]
  simp only [listOverwrite, List.append_assoc, List.length_append, Nat.add_assoc]

theorem bufferWriteBytesHeader_emit (pkt : OutputPacket) (w : Buffer)
    (sched : List WriteOutcome) (peer : List Nat)
    (hskip : pkt.skip_header_write = false)
    (hroom : ¬ (w.GetMaxSize - w.buf_ptr < 5))
    (hdata : w.buf_ptr + 5 ≤ w.data.length) :
    BufferWriteBytesHeader pkt w true sched peer =
      (.WRITE_COMPLETE, { pkt with skip_header_write := true },
        { w with data := listOverwrite w.data w.buf_ptr (headerBytes pkt),
                 buf_ptr := w.buf_ptr + (headerBytes pkt).length,
                 buf_size := w.buf_ptr + (headerBytes pkt).length },
        sched, peer) := by
  unfold BufferWriteBytesHeader
  rw [if_neg (by simp [hskip]), if_neg hroom]
  dsimp only
  by_cases hm : pkt.msg_type = 0
  · rw [if_neg (show ¬ pkt.msg_type ≠ 0 from by omega)]
    simp only [Prod.mk.injEq, Buffer.mk.injEq]
    simp [headerBytes, hm, be32]
  · rw [if_pos hm]
    have hx := listOverwrite_append w.data [pkt.msg_type % 256]
      (be32 ((pkt.len + 4) % 2 ^ 32)) w.buf_ptr (by simp [be32]; omega)
    simp only [List.length_singleton, List.singleton_append] at hx
    norm_num at hx
    simp only [Prod.mk.injEq, Buffer.mk.injEq]
    simp [headerBytes, hm, hx, be32_length]

theorem bufferWriteBytesContent_zero (pkt : OutputPacket) (w : Buffer)
    (sched : List WriteOutcome) (peer : List Nat) (hlen : pkt.len = 0) :
    BufferWriteBytesContent pkt w sched peer
      = (.WRITE_COMPLETE, pkt, w, sched, peer) := by
  unfold BufferWriteBytesContent bufferWriteBytesContentLoop
  rw [if_pos hlen]

theorem bufferWriteBytesContent_fits (pkt : OutputPacket) (w : Buffer)
    (sched : List WriteOutcome) (peer : List Nat)
    (hlen : pkt.len ≠ 0) (hfit : pkt.len ≤ w.GetMaxSize - w.buf_ptr) :
    BufferWriteBytesContent pkt w sched peer =
      (.WRITE_COMPLETE, pkt,
        { w with data := listOverwrite w.data w.buf_ptr (sliceD pkt.buf pkt.write_ptr pkt.len),
                 buf_ptr := w.buf_ptr + pkt.len, buf_size := w.buf_ptr + pkt.len },
        sched, peer) := by
  unfold BufferWriteBytesContent bufferWriteBytesContentLoop
  rw [if_neg hlen, if_pos hfit]

def c3Pkt : OutputPacket :=
  { msg_type := 88, len := 10, buf := [1, 2, 3, 4, 5, 6, 7, 8, 9, 10], write_ptr := 0,
    skip_header_write := false }

def c3Run := BufferWriteBytesHeader c3Pkt (freshBuffer 64) false [] []

/-- C3 counterexample: before startup finishes (`finish_startup_packet_`
unset) `BufferWriteBytesHeader` emits only the type byte - the committed
header is 1 byte, not the claimed type byte plus 4-byte length. -/
theorem header_omits_length_before_startup :
    c3Run.1 = WriteState.WRITE_COMPLETE ∧
    c3Run.2.2.1.buf_size = 1 ∧
    c3Run.2.2.1.data.take c3Run.2.2.1.buf_size = [88] ∧
    ¬ c3Run.2.2.1.buf_size = (headerBytes c3Pkt).length := by decide

/-- C3 (amended): once startup is finished, buffering one packet into a
fresh write buffer emits exactly the header - type byte (omitted exactly
when `msg_type = 0`) then 4-byte big-endian `len + 4` - followed by the
payload. -/
theorem header_then_payload_layout (pkt : OutputPacket) (cap : Nat)
    (sched : List WriteOutcome) (peer : List Nat)
    (hskip : pkt.skip_header_write = false)
    (hwp : pkt.write_ptr = 0)
    (hbuf : pkt.buf.length = pkt.len)
    (hcap : 5 + pkt.len ≤ cap) :
    (WritePacketsLoop [pkt] (freshBuffer cap) true sched peer).1
        = WriteState.WRITE_COMPLETE ∧
    (WritePacketsLoop [pkt] (freshBuffer cap) true sched peer).2.2.2.1.buf_size
        = (headerBytes pkt).length + pkt.len ∧
    (WritePacketsLoop [pkt] (freshBuffer cap) true sched peer).2.2.2.1.data.take
        ((headerBytes pkt).length + pkt.len) = headerBytes pkt ++ pkt.buf ∧
    (WritePacketsLoop [pkt] (freshBuffer cap) true sched peer).2.2.2.2.2 = peer := by
  have hhl : (headerBytes pkt).length ≤ 5 := headerBytes_length_le pkt
  have hb := bufferWriteBytesHeader_emit pkt (freshBuffer cap) sched peer hskip
    (by simp [freshBuffer, Buffer.GetMaxSize]; omega) (by simp [freshBuffer]; omega)
  have htake0 := listOverwrite_take (List.replicate cap 0) (headerBytes pkt) 0
    (by simp; omega)
  simp only [List.take_zero, List.nil_append, Nat.zero_add] at htake0
  unfold WritePacketsLoop
  rw [hb]
  dsimp only
  by_cases h0 : pkt.len = 0
  · rw [bufferWriteBytesContent_zero _ _ _ _ (by simpa using h0)]
    dsimp only
    unfold WritePacketsLoop
    dsimp only
    have hnil : pkt.buf = [] := List.eq_nil_of_length_eq_zero (by omega)
    refine ⟨rfl, by simp [h0, freshBuffer], ?_, rfl⟩
    simp only [h0, Nat.add_zero, hnil, List.append_nil, freshBuffer]
    exact htake0
  · rw [bufferWriteBytesContent_fits _ _ _ _ (by simpa using h0)
      (by simp [freshBuffer, Buffer.GetMaxSize]; omega)]
    dsimp only
    unfold WritePacketsLoop
    dsimp only
    have hodlen : (listOverwrite (List.replicate cap 0) 0 (headerBytes pkt)).length = cap := by
      rw [listOverwrite_length]
      · simp
      · simp; omega
    have hslice : sliceD pkt.buf 0 pkt.len = pkt.buf := by
      rw [← hbuf, sliceD_self]
    have htake1 := listOverwrite_take
      (listOverwrite (List.replicate cap 0) 0 (headerBytes pkt)) pkt.buf
      (headerBytes pkt).length (by rw [hodlen]; omega)
    refine ⟨rfl, by simp [freshBuffer], ?_, rfl⟩
    simp only [freshBuffer, Nat.zero_add, hwp, hslice]
    rw [← hbuf, htake1, htake0]

/-- Witness for the header layout theorem at a concrete packet. -/
theorem header_then_payload_layout_witness :
    (WritePacketsLoop [c3Pkt] (freshBuffer 64) true [] []).1
        = WriteState.WRITE_COMPLETE ∧
    (WritePacketsLoop [c3Pkt] (freshBuffer 64) true [] []).2.2.2.1.buf_size
        = (headerBytes c3Pkt).length + c3Pkt.len ∧
    (WritePacketsLoop [c3Pkt] (freshBuffer 64) true [] []).2.2.2.1.data.take
        ((headerBytes c3Pkt).length + c3Pkt.len) = headerBytes c3Pkt ++ c3Pkt.buf ∧
    (WritePacketsLoop [c3Pkt] (freshBuffer 64) true [] []).2.2.2.2.2 = [] :=
  header_then_payload_layout c3Pkt 64 [] [] rfl rfl rfl (by decide)

/-!
## C6: startup packet length underflow
-/

/-- The `InputPacket` fields `ReadStartupPacketHeader` sets. -/
structure InputPacket where
  len : Nat
  is_extended : Bool
  header_parsed : Bool
deriving DecidableEq, Repr

/-- `NetworkConnection::ReadStartupPacketHeader` (lines 424-448): with fewer
than 4 readable bytes return `false` (`none` here: more data needed);
otherwise `rpkt.len = rbuf.GetUInt32BigEndian() - sizeof(uint32_t)` in
`size_t` arithmetic - a length field below 4 wraps modulo `2^64` -, mark
the packet extended when `len` exceeds the buffer capacity
(`ReserveExtendedBuffer` then reserves that many bytes), advance `buf_ptr`
past the length field and mark the header parsed.  The function has no
malformed-rejection path. -/
def ReadStartupPacketHeader (rbuf : Buffer) (rpkt : InputPacket) :
    Option (Buffer × InputPacket) :=
  if rbuf.IsReadDataAvailable 4 then
    let len := (rbuf.GetUInt32BigEndian + 2 ^ 64 - 4) % 2 ^ 64
    some ({ rbuf with buf_ptr := rbuf.buf_ptr + 4 },
      { rpkt with len := len, is_extended := decide (len > rbuf.GetMaxSize),
                  header_parsed := true })
  else none

def c6Rbuf : Buffer :=
  { cap := 8192, data := [0, 0, 0, 0], buf_ptr := 0, buf_size := 4, buf_flush_ptr := 0 }

def c6Parse := ReadStartupPacketHeader c6Rbuf
  { len := 0, is_extended := false, header_parsed := false }

/-- C6 counterexample: a startup packet whose length field is 0 is not
rejected as malformed and the connection is not closed: the header parse
succeeds, `len` underflows to `2^64 - 4` by unsigned wrap-around and the
packet is marked extended, so an extended payload buffer sized from the
wrapped value is reserved. -/
theorem startup_zero_length_wraps :
    c6Parse = some
      ({ c6Rbuf with buf_ptr := 4 },
       { len := 2 ^ 64 - 4, is_extended := true, header_parsed := true }) := by
  decide

/-- C6 (amended): for every startup packet whose 4-byte big-endian length
field is less than 4, the header parse succeeds anyway, computing
`len = field + 2^64 - 4` by `size_t` wrap-around and marking the packet
extended (the wrapped value always exceeds any realistic capacity), and an
extended payload buffer sized from the wrapped value is reserved; no
malformed rejection happens. -/
theorem startup_short_length_underflows (rbuf : Buffer) (rpkt : InputPacket)
    (havail : rbuf.IsReadDataAvailable 4 = true)
    (hlt : rbuf.GetUInt32BigEndian < 4)
    (hcap : rbuf.cap < 2 ^ 64 - 8) :
    ReadStartupPacketHeader rbuf rpkt = some
      ({ rbuf with buf_ptr := rbuf.buf_ptr + 4 },
       { rpkt with len := rbuf.GetUInt32BigEndian + 2 ^ 64 - 4, is_extended := true,
                   header_parsed := true }) := by
  unfold ReadStartupPacketHeader
  rw [if_pos havail]
  dsimp only
  have hmod : (rbuf.GetUInt32BigEndian + 2 ^ 64 - 4) % 2 ^ 64
      = rbuf.GetUInt32BigEndian + 2 ^ 64 - 4 := Nat.mod_eq_of_lt (by omega)
  simp only [Option.some.injEq, Prod.mk.injEq, Buffer.mk.injEq, InputPacket.mk.injEq,
    hmod, Buffer.GetMaxSize, decide_eq_true_eq, and_true, true_and]
  omega

def c6Wit : Buffer :=
  { cap := 8192, data := [0, 0, 0, 2], buf_ptr := 0, buf_size := 4, buf_flush_ptr := 0 }

/-- Witness for the underflow theorem at length field 2. -/
theorem startup_short_length_underflows_witness :
    ReadStartupPacketHeader c6Wit { len := 0, is_extended := false, header_parsed := false }
      = some
        ({ c6Wit with buf_ptr := c6Wit.buf_ptr + 4 },
         { len := c6Wit.GetUInt32BigEndian + 2 ^ 64 - 4, is_extended := true,
           header_parsed := true }) :=
  startup_short_length_underflows c6Wit { len := 0, is_extended := false, header_parsed := false }
    (by decide) (by decide) (by decide)

/-!
## C8: pre-read compaction of the read buffer
-/

def c8Rbuf : Buffer :=
  { cap := 8, data := [1, 2, 3, 4, 5, 0, 0, 0], buf_ptr := 5, buf_size := 5, buf_flush_ptr := 0 }

/-- C8 counterexample: with `buf_ptr = buf_size = 5 < cap = 8` the claimed
condition `committed == CAP && cursor > 0` is false, yet the pre-read step
still rewrites the indices (the full-consumption `Reset` sets both to 0),
so the index adjustment is not performed in exactly the claimed condition. -/
theorem fill_pre_outside_claimed_condition :
    ¬ (c8Rbuf.buf_size = c8Rbuf.cap ∧ 0 < c8Rbuf.buf_ptr) ∧
    FillReadBufferPre false c8Rbuf ≠ c8Rbuf ∧
    (FillReadBufferPre false c8Rbuf).buf_ptr = 0 ∧
    (FillReadBufferPre false c8Rbuf).buf_size = 0 := by decide

/-- The unread bytes of the read buffer, `[buf_ptr..buf_size)`. -/
def unreadBytes (r : Buffer) : List Nat := sliceD r.data r.buf_ptr (r.buf_size - r.buf_ptr)

/-- C8 (amended): the pre-read step of `FillReadBuffer` (i) does nothing
when `read_blocked` is set; (ii) resets both indices to zero whenever the
buffer is fully consumed (`cursor == committed`), even below capacity;
(iii) when `0 < cursor < committed == CAP` moves the unread tail to offset
0 verbatim, setting `cursor = 0` and `committed` to the tail length; and
(iv) leaves the buffer unchanged otherwise. -/
theorem fill_pre_compaction (r : Buffer)
    (hwf : r.buf_ptr ≤ r.buf_size) (hlen : r.buf_size ≤ r.data.length) :
    (FillReadBufferPre true r = r) ∧
    (r.buf_ptr = r.buf_size → FillReadBufferPre false r = r.Reset) ∧
    (r.buf_ptr < r.buf_size → r.buf_size = r.cap →
      (FillReadBufferPre false r).buf_ptr = 0 ∧
      (FillReadBufferPre false r).buf_size = r.buf_size - r.buf_ptr ∧
      unreadBytes (FillReadBufferPre false r) = unreadBytes r) ∧
    (r.buf_ptr < r.buf_size → r.buf_size ≠ r.cap → FillReadBufferPre false r = r) := by
  refine ⟨rfl, ?_, ?_, ?_⟩
  · intro he
    unfold FillReadBufferPre
    rw [if_neg (by simp), if_pos he]
    dsimp only
    rw [if_neg (by simp [Buffer.Reset])]
  · intro hlt hfull
    unfold FillReadBufferPre
    rw [if_neg (by simp), if_neg (show ¬ r.buf_ptr = r.buf_size from by omega)]
    dsimp only
    rw [if_pos (by exact ⟨hlt, hfull⟩)]
    refine ⟨rfl, rfl, ?_⟩
    unfold unreadBytes
    dsimp only
    have hk : (sliceD r.data r.buf_ptr (r.buf_size - r.buf_ptr)).length
        = r.buf_size - r.buf_ptr := sliceD_length _ _ _
    have hdl : (listOverwrite r.data 0 (sliceD r.data r.buf_ptr (r.buf_size - r.buf_ptr))).length
        = r.data.length := by
      rw [listOverwrite_length]
      rw [hk]
      omega
    rw [Nat.sub_zero, sliceD_eq_drop_take _ _ _ (by omega), List.drop_zero]
    have := listOverwrite_take r.data (sliceD r.data r.buf_ptr (r.buf_size - r.buf_ptr)) 0
      (by rw [hk]; omega)
    simp only [List.take_zero, List.nil_append, Nat.zero_add, hk] at this
    exact this
  · intro hlt hne
    unfold FillReadBufferPre
    rw [if_neg (by simp), if_neg (show ¬ r.buf_ptr = r.buf_size from by omega)]
    dsimp only
    rw [if_neg (by simp [Buffer.GetMaxSize]; omega)]

def c8Wit : Buffer :=
  { cap := 4, data := [9, 8, 7, 6], buf_ptr := 1, buf_size := 4, buf_flush_ptr := 0 }

/-- Witness for the compaction characterisation at a concrete buffer. -/
theorem fill_pre_compaction_witness :
    (FillReadBufferPre true c8Wit = c8Wit) ∧
    (c8Wit.buf_ptr = c8Wit.buf_size → FillReadBufferPre false c8Wit = c8Wit.Reset) ∧
    (c8Wit.buf_ptr < c8Wit.buf_size → c8Wit.buf_size = c8Wit.cap →
      (FillReadBufferPre false c8Wit).buf_ptr = 0 ∧
      (FillReadBufferPre false c8Wit).buf_size = c8Wit.buf_size - c8Wit.buf_ptr ∧
      unreadBytes (FillReadBufferPre false c8Wit) = unreadBytes c8Wit) ∧
    (c8Wit.buf_ptr < c8Wit.buf_size → c8Wit.buf_size ≠ c8Wit.cap →
      FillReadBufferPre false c8Wit = c8Wit) :=
  fill_pre_compaction c8Wit (by decide) (by decide)

/-!
## C5: the TLS shutdown loop in CLOSING
-/

/-- Outcome of one `SSL_shutdown` call, as `CloseSocket` classifies it. -/
inductive ShutdownOutcome
  | success      -- returned 1: break
  | inProgress   -- returned 0 ("shutdown is not finished yet"): continue
  | wantRead     -- negative, SSL_ERROR_WANT_READ: continue
  | wantWrite    -- negative, SSL_ERROR_WANT_WRITE: continue
  | fatal        -- negative, any other error: break
deriving DecidableEq, Repr

/-- The outcomes on which the `while (1)` loop breaks. -/
def ShutdownOutcome.isTerminal : ShutdownOutcome → Bool
  | .success => true
  | .fatal => true
  | _ => false

/-- The `while (1)` SSL shutdown loop of `CloseSocket` (lines 555-575):
break on `shutdown_ret == 1` or on an error other than
want-read/want-write; `continue` otherwise.  Given the outcomes of the
consecutive `SSL_shutdown` calls, this returns the number of calls made
when the loop breaks, or `none` when the outcome sequence is exhausted
with the loop still spinning. -/
def sslShutdownLoop : List ShutdownOutcome → Option Nat
  | [] => none
  | o :: rest =>
    if o.isTerminal then some 1
    else (sslShutdownLoop rest).map (fun k => k + 1)

/-- C5 counterexample: no safety cap bounds the loop - for every candidate
cap there is an outcome sequence at least that long (a peer that never
completes the close-notify) on which the loop is still spinning. -/
theorem ssl_shutdown_no_iteration_cap :
    ¬ ∃ cap : Nat, ∀ sched : List ShutdownOutcome,
      cap ≤ sched.length → (sslShutdownLoop sched).isSome = true := by
  rintro ⟨cap, h⟩
  have hnone : ∀ n, sslShutdownLoop (List.replicate n ShutdownOutcome.inProgress) = none := by
    intro n
    induction n with
    | zero => rfl
    | succ n ih =>
      simp [List.replicate_succ, sslShutdownLoop, ShutdownOutcome.isTerminal, ih]
  have hc := h (List.replicate cap ShutdownOutcome.inProgress) (by simp)
  rw [hnone cap] at hc
  simp at hc

/-- C5 (amended): the CLOSING TLS shutdown loop terminates exactly at the
first success or fatal (non-would-block) outcome, having called
`SSL_shutdown` once per outcome up to and including it; on a sequence of
only in-progress/would-block outcomes it spins without bound - there is no
safety iteration cap, so termination depends on the peer. -/
theorem ssl_shutdown_terminates_iff_terminal (sched : List ShutdownOutcome) :
    sslShutdownLoop sched
      = if sched.any (fun o => o.isTerminal)
        then some ((sched.takeWhile (fun o => ! o.isTerminal)).length + 1)
        else none := by
  induction sched with
  | nil => rfl
  | cons o rest ih =>
    by_cases ht : o.isTerminal = true
    · simp [sslShutdownLoop, ht, List.any_cons, List.takeWhile_cons]
    · simp only [sslShutdownLoop, ht, Bool.false_eq_true, if_false, ih, List.any_cons,
        List.takeWhile_cons, Bool.or_eq_true]
      by_cases ha : rest.any (fun o => o.isTerminal) = true <;>
        simp [ha, ht]

/-!
## C4: idempotence of CloseSocket
-/

/-- The `ConnState` values of the connection state machine. -/
inductive ConnState
  | CONN_READ | CONN_PROCESS | CONN_WRITE | CONN_WAIT | CONN_CLOSING | CONN_CLOSED
deriving DecidableEq, Repr, Fintype

/-- The externally observable actions `CloseSocket` performs. -/
inductive CloseAction
  | delNetworkEvent    -- event_del(network_event)
  | delWorkpoolEvent   -- event_del(workpool_event)
  | sslShutdownCall    -- the SSL_shutdown loop ran
  | closeFd            -- one close(sock_fd_) call
deriving DecidableEq, Repr

/-- The connection fields `CloseSocket` and `Reset` touch. -/
structure CloseConn where
  state : ConnState
  rbuf : Buffer
  wbuf : Buffer
  hasSSLContext : Bool          -- conn_SSL_context != nullptr
  next_response : Nat
  ssl_handshake : Bool
  finish_startup_packet : Bool
  initial_packet : InputPacket
  readBlocked : Bool
  writeBlocked : Bool
  readBlockedOnWrite : Bool
  writeBlockedOnRead : Bool
deriving DecidableEq, Repr

/-- `NetworkConnection::Reset` (lines 591-612): reset both buffers, the
handler, the traffic cop and the initial packet, zero `next_response_`,
clear the startup and blocking flags, and free the SSL session
(`conn_SSL_context = nullptr`). -/
def ResetConn (c : CloseConn) : CloseConn :=
  { c with
    rbuf := c.rbuf.Reset, wbuf := c.wbuf.Reset,
    next_response := 0, ssl_handshake := false, finish_startup_packet := false,
    initial_packet := { len := 0, is_extended := false, header_parsed := false },
    hasSSLContext := false,
    readBlocked := false, writeBlocked := false,
    readBlockedOnWrite := false, writeBlockedOnRead := false }

/-- `NetworkConnection::CloseSocket` (lines 548-589): `event_del` both
events, transition to `CONN_CLOSED`, run the TLS shutdown loop when a TLS
session exists (its result is discarded), `Reset` all state (which frees
the TLS session), then `close(sock_fd_)` in a loop retrying on EINTR.
Returns the new state and the observable actions; `closeFd` appears once
per `close(2)` call, `closeEintrs` of which return EINTR before the final
one. -/
def CloseSocket (c : CloseConn) (sslSched : List ShutdownOutcome) (closeEintrs : Nat) :
    CloseConn × List CloseAction :=
  let c1 := { c with state := ConnState.CONN_CLOSED }
  let acts := [CloseAction.delNetworkEvent, CloseAction.delWorkpoolEvent]
    ++ (if c1.hasSSLContext then [CloseAction.sslShutdownCall] else [])
  (ResetConn c1, acts ++ List.replicate (closeEintrs + 1) CloseAction.closeFd)

def c4Conn : CloseConn :=
  { state := ConnState.CONN_READ, rbuf := freshBuffer 4, wbuf := freshBuffer 4,
    hasSSLContext := true, next_response := 1, ssl_handshake := true,
    finish_startup_packet := true,
    initial_packet := { len := 3, is_extended := false, header_parsed := true },
    readBlocked := false, writeBlocked := false,
    readBlockedOnWrite := false, writeBlockedOnRead := false }

def c4Once := CloseSocket c4Conn [ShutdownOutcome.success] 0

def c4Twice := CloseSocket c4Once.1 [] 0

/-- C4 counterexample: two invocations of `CloseSocket` on the same handle
pass the FD to `close(2)` twice (once per invocation) - the claim says at
most once across both. -/
theorem close_called_once_per_invocation :
    (c4Once.2 ++ c4Twice.2).count CloseAction.closeFd = 2 ∧ ¬ (2 : Nat) ≤ 1 := by decide

/-- C4 (amended): `CloseSocket` is idempotent on the connection state - the
second invocation leaves the state exactly as the first left it, and skips
the TLS shutdown because `Reset` freed the session - but each invocation
passes the FD to `close(2)` exactly once (absent EINTR retries), so the FD
is closed once per invocation, twice across both, rather than at most
once. -/
theorem closeSocket_idempotent_state (c : CloseConn) (s1 s2 : List ShutdownOutcome) :
    (CloseSocket (CloseSocket c s1 0).1 s2 0).1 = (CloseSocket c s1 0).1 ∧
    (CloseSocket c s1 0).2.count CloseAction.closeFd = 1 ∧
    (CloseSocket (CloseSocket c s1 0).1 s2 0).2.count CloseAction.closeFd = 1 ∧
    ((CloseSocket (CloseSocket c s1 0).1 s2 0).2.count CloseAction.sslShutdownCall = 0) := by
  refine ⟨?_, ?_, ?_, ?_⟩
  · simp [CloseSocket, ResetConn, Buffer.Reset]
  · simp [CloseSocket, ResetConn]
    split_ifs <;> rfl
  · simp [CloseSocket, ResetConn]
  · simp [CloseSocket, ResetConn]

/-!
## C7: wake exclusivity of the connection state machine
-/

/-- The outcomes `FillReadBuffer` can drive the READ state with. -/
inductive ReadResult
  | proceed | needData | finish | error
deriving DecidableEq, Repr, Fintype

/-- The `ProcessResult`s the protocol handler returns to `Process`. -/
inductive ProcessResult
  | COMPLETE | MORE_DATA_REQUIRED | PROCESSING | TERMINATE
deriving DecidableEq, Repr, Fintype

/-- What `GetResult` does on wake, in source order (lines 707-716). -/
inductive WakeAction
  | registerNetworkEvent   -- event_add(network_event, nullptr)
  | handlerGetResult       -- protocol_handler_->GetResult()
  | unsetQueuing           -- traffic_cop_.SetQueuing(false)
deriving DecidableEq, Repr

/-- The event-registration view of one connection handle. -/
structure Machine where
  state : ConnState
  networkRegistered : Bool
deriving DecidableEq, Repr, Fintype

/-- `NetworkConnection::Process` (lines 659-678), steady state: `COMPLETE`
proceeds to WRITE, `MORE_DATA_REQUIRED` goes back to READ, `PROCESSING`
deletes the network event (`event_del`) and yields `GET_RESULT`, driving
the handle to `CONN_WAIT`; `TERMINATE` closes. -/
def stepProcess (m : Machine) (pr : ProcessResult) : Machine :=
  match pr with
  | ProcessResult.COMPLETE => { m with state := ConnState.CONN_WRITE }
  | ProcessResult.MORE_DATA_REQUIRED => { m with state := ConnState.CONN_READ }
  | ProcessResult.PROCESSING => { state := ConnState.CONN_WAIT, networkRegistered := false }
  | ProcessResult.TERMINATE => { m with state := ConnState.CONN_CLOSING }

/-- `NetworkConnection::GetResult` (lines 707-716): `event_add` the network
event FIRST, then let the protocol handler materialise the response
packets, then clear the queuing flag; the `PROCEED` transition drives the
handle to WRITE (spec section 4.4.5). -/
def stepGetResult (m : Machine) : Machine × List WakeAction :=
  ({ state := ConnState.CONN_WRITE, networkRegistered := true },
   [WakeAction.registerNetworkEvent, WakeAction.handlerGetResult, WakeAction.unsetQueuing])

/-- The per-step stimulus: the outcome the current state's handler produces
when the dispatcher fires the handle (only the matching field is read). -/
structure Stimulus where
  readRes : ReadResult
  procRes : ProcessResult
  writeRes : WriteState
deriving DecidableEq, Repr, Fintype

/-- Modelled from the spec: the `ConnectionHandleStateMachine` driver
(`connection_handle.h/.cpp`, not among the staged sources) maps each
state's transition to the next state per the diagram of spec section 4.4:
READ yields in place on NEED_DATA, proceeds to PROCESS, closes on
FINISH/ERROR; PROCESS as in `stepProcess`; WRITE re-arms for read on
`WRITE_COMPLETE` (`UpdateEvent` = unregister + register, so exactly one
event stays registered), stays put on `WRITE_NOT_READY` (the flush already
re-armed the one event for write), closes on error; WAIT_RESULT awaits the
manual wake and runs `GetResult`; CLOSING deregisters the events and
reaches CLOSED (`CloseSocket`). -/
def step (m : Machine) (s : Stimulus) : Machine :=
  match m.state with
  | ConnState.CONN_READ =>
    match s.readRes with
    | ReadResult.proceed => { m with state := ConnState.CONN_PROCESS }
    | ReadResult.needData => m
    | ReadResult.finish => { m with state := ConnState.CONN_CLOSING }
    | ReadResult.error => { m with state := ConnState.CONN_CLOSING }
  | ConnState.CONN_PROCESS => stepProcess m s.procRes
  | ConnState.CONN_WRITE =>
    match s.writeRes with
    | WriteState.WRITE_COMPLETE =>
      { m with state := ConnState.CONN_READ, networkRegistered := true }
    | WriteState.WRITE_NOT_READY => m
    | WriteState.WRITE_ERROR => { m with state := ConnState.CONN_CLOSING }
  | ConnState.CONN_WAIT => (stepGetResult m).1
  | ConnState.CONN_CLOSING =>
    { m with state := ConnState.CONN_CLOSED, networkRegistered := false }
  | ConnState.CONN_CLOSED => m

/-- The handle right after `Init` (lines 26-48): the network event is
registered and the state machine starts at `CONN_READ`. -/
def initMachine : Machine := { state := ConnState.CONN_READ, networkRegistered := true }

def runMachine (ss : List Stimulus) : Machine := ss.foldl step initMachine

/-- Wake exclusivity: no network event in `CONN_WAIT`, exactly one in every
other non-CLOSED state. -/
def WakeExclusive (m : Machine) : Prop :=
  (m.state = ConnState.CONN_WAIT → m.networkRegistered = false) ∧
  (m.state ≠ ConnState.CONN_WAIT → m.state ≠ ConnState.CONN_CLOSED →
    m.networkRegistered = true)

instance (m : Machine) : Decidable (WakeExclusive m) := by
  unfold WakeExclusive
  infer_instance

theorem step_preserves_wakeExclusive :
    ∀ (m : Machine) (s : Stimulus), WakeExclusive m → WakeExclusive (step m s) := by
  decide

/-- C7: in every reachable state of one connection's machine, a handle in
`CONN_WAIT` (entered when the handler returned `PROCESSING`) has its
network event deregistered, while every other non-CLOSED state has it
registered; and the wake path (`GetResult`) re-registers the network event
before materialising results. -/
theorem wake_exclusivity :
    (∀ ss : List Stimulus, WakeExclusive (runMachine ss)) ∧
    (∀ m : Machine,
      (stepGetResult m).2.indexOf WakeAction.registerNetworkEvent
        < (stepGetResult m).2.indexOf WakeAction.handlerGetResult) := by
  constructor
  · intro ss
    have haux : ∀ (l : List Stimulus) (m : Machine), WakeExclusive m →
        WakeExclusive (l.foldl step m) := by
      intro l
      induction l with
      | nil => intro m h; exact h
      | cons a l ih => intro m h; exact ih (step m a) (step_preserves_wakeExclusive m a h)
    exact haux ss initMachine (by decide)
  · intro m
    simp only [stepGetResult]
    decide

end Peloton
